import Mathlib

/-!
Formal model of the RustFS blob service (`src/rustfs/src/main.rs`).

The service is a thin HTTP layer over a directory tree: `upload_file`
buffers a multipart body, keeps the last part named `"file"`, rejects an
empty payload with status 400, generates a fresh UUID id, hashes the bytes
with SHA-256 (lowercase hex), creates the shard directory named by the
first two bytes of the id, and writes the bytes to `root/id[0..2]/id`.
`download_file`, `delete_file` and `file_info` recompute that path from the
caller-supplied id (the Rust expression `&id[..2]` panics when byte index 2
is out of bounds or not a character boundary) and operate on the file,
returning 404 when it does not exist.

The filesystem is modelled as an association list from ids to byte lists
plus the set of shard directories that exist; filesystem primitives are
modelled as succeeding (the 500 branches of the handlers fire only on I/O
failures, which have no counterpart in this pure model). The random UUID is
passed to `upload_file` as an explicit `freshId` argument. SHA-256 and the
lowercase hex encoder are embedded directly (FIPS 180-4), matching the
`sha2` and `hex` crates the source calls.
-/

set_option maxRecDepth 8192

namespace RustFS

/-- A byte sequence, each entry a value below 256 in well-formed inputs. -/
abbrev Bytes := List Nat

/-- Truncation to 32 bits, the wrap-around of `u32` arithmetic. -/
def w32 (x : Nat) : Nat := x % 4294967296

/-- Right rotation of a 32-bit word (`x` below `2 ^ 32`). -/
def rotr32 (n x : Nat) : Nat := x / 2 ^ n + x % 2 ^ n * 2 ^ (32 - n)

/-- Bitwise complement of a 32-bit word. -/
def not32 (x : Nat) : Nat := 4294967295 - x

/-- The 64 SHA-256 round constants (FIPS 180-4 section 4.2.2). -/
def sha256K : List Nat :=
  [1116352408, 1899447441, 3049323471, 3921009573, 961987163,
   1508970993, 2453635748, 2870763221, 3624381080, 310598401,
   607225278, 1426881987, 1925078388, 2162078206, 2614888103,
   3248222580, 3835390401, 4022224774, 264347078, 604807628,
   770255983, 1249150122, 1555081692, 1996064986, 2554220882,
   2821834349, 2952996808, 3210313671, 3336571891, 3584528711,
   113926993, 338241895, 666307205, 773529912, 1294757372,
   1396182291, 1695183700, 1986661051, 2177026350, 2456956037,
   2730485921, 2820302411, 3259730800, 3345764771, 3516065817,
   3600352804, 4094571909, 275423344, 430227734, 506948616,
   659060556, 883997877, 958139571, 1322822218, 1537002063,
   1747873779, 1955562222, 2024104815, 2227730452, 2361852424,
   2428436474, 2756734187, 3204031479, 3329325298]

/-- The initial SHA-256 hash state (FIPS 180-4 section 5.3.3). -/
def sha256H0 : List Nat :=
  [1779033703, 3144134277, 1013904242, 2773480762,
   1359893119, 2600822924, 528734635, 1541459225]

/-- SHA-256 padding: append `0x80`, zeros to 56 mod 64, then the bit length
as eight big-endian bytes. -/
def sha256pad (msg : Bytes) : Bytes :=
  let l := msg.length
  let k := (119 - l % 64) % 64
  msg ++ 0x80 :: List.replicate k 0 ++
    (List.range 8).map (fun i => 8 * l / 2 ^ (8 * (7 - i)) % 256)

/-- Structural worker for `chunkN`: fuel bounds the recursion depth. -/
def chunkGo (n : Nat) : Nat → Bytes → List Bytes
  | 0, _ => []
  | _, [] => []
  | fuel + 1, x :: xs => (x :: xs.take (n - 1)) :: chunkGo n fuel (xs.drop (n - 1))

/-- Split a byte list into consecutive chunks of length `n` (last may be shorter). -/
def chunkN (n : Nat) (l : Bytes) : List Bytes := chunkGo n l.length l

/-- Interpret a 64-byte block as sixteen big-endian 32-bit words. -/
def bytesToWords (block : Bytes) : List Nat :=
  (chunkN 4 block).map (fun g => g.foldl (fun a b => a * 256 + b) 0)

/-- Extend sixteen message-schedule words to sixty-four (FIPS 180-4 section 6.2.2). -/
def sha256extend (w16 : List Nat) : List Nat :=
  (List.range 48).foldl (fun ws _ =>
    let n := ws.length
    let w15 := ws.getD (n - 15) 0
    let w2 := ws.getD (n - 2) 0
    let s0 := rotr32 7 w15 ^^^ rotr32 18 w15 ^^^ w15 / 2 ^ 3
    let s1 := rotr32 17 w2 ^^^ rotr32 19 w2 ^^^ w2 / 2 ^ 10
    ws ++ [w32 (ws.getD (n - 16) 0 + s0 + ws.getD (n - 7) 0 + s1)]) w16

/-- One SHA-256 compression round on the eight-word working state. -/
def sha256round (st : List Nat) (kw : Nat × Nat) : List Nat :=
  match st with
  | [a, b, c, d, e, f, g, h] =>
    let s1 := rotr32 6 e ^^^ rotr32 11 e ^^^ rotr32 25 e
    let ch := e &&& f ^^^ not32 e &&& g
    let t1 := w32 (h + s1 + ch + kw.1 + kw.2)
    let s0 := rotr32 2 a ^^^ rotr32 13 a ^^^ rotr32 22 a
    let maj := a &&& b ^^^ a &&& c ^^^ b &&& c
    let t2 := w32 (s0 + maj)
    [w32 (t1 + t2), a, b, c, w32 (d + t1), e, f, g]
  | _ => st

/-- Compress one 64-byte block into the running hash state. -/
def sha256compress (h : List Nat) (block : List Nat) : List Nat :=
  let ws := sha256extend (bytesToWords block)
  let fin := (sha256K.zip ws).foldl sha256round h
  (h.zip fin).map (fun p => w32 (p.1 + p.2))

/-- SHA-256 of a byte list, as the 32 digest bytes. -/
def sha256 (msg : Bytes) : Bytes :=
  let hs := (chunkN 64 (sha256pad msg)).foldl sha256compress sha256H0
  (hs.map (fun w => [w / 2 ^ 24 % 256, w / 2 ^ 16 % 256, w / 2 ^ 8 % 256, w % 256])).flatten

/-- Lowercase hexadecimal digit for a value below 16. -/
def hexDigit (n : Nat) : Char :=
  if n < 10 then Char.ofNat (48 + n) else Char.ofNat (87 + n)

/-- Lowercase hex encoding of a byte list, as produced by the `hex` crate. -/
def hexEncode (bs : Bytes) : String :=
  String.mk ((bs.map (fun b => [hexDigit (b / 16), hexDigit (b % 16)])).flatten)

/-- UTF-8 encoding of a single code point. -/
def utf8EncodeCharNat (n : Nat) : Bytes :=
  if n < 128 then [n]
  else if n < 2048 then [192 + n / 64, 128 + n % 64]
  else if n < 65536 then [224 + n / 4096, 128 + n / 64 % 64, 128 + n % 64]
  else [240 + n / 262144, 128 + n / 4096 % 64, 128 + n / 64 % 64, 128 + n % 64]

/-- UTF-8 encoding of a character list. -/
def utf8BytesL (cs : List Char) : Bytes :=
  (cs.map (fun c => utf8EncodeCharNat c.toNat)).flatten

/-- The UTF-8 bytes of a string, the representation Rust indexes into. -/
def utf8Bytes (s : String) : Bytes := utf8BytesL s.data

/-- Whether the Rust slice `&s[..j]` of a string with UTF-8 bytes `bs`
succeeds: the byte index must be in bounds and on a character boundary
(not pointing at a continuation byte `0b10xxxxxx`). -/
def sliceOk (bs : Bytes) (j : Nat) : Bool :=
  if j = bs.length then true
  else
    match bs.drop j with
    | [] => false
    | b :: _ => b / 64 != 2

/-- The prefix computation `&id[..2]` shared by the handlers: `none` models
the Rust panic on an out-of-bounds or non-boundary slice, `some` carries the
two leading UTF-8 bytes used as the shard directory name. -/
def rustSlice2 (id : String) : Option Bytes :=
  let bs := utf8Bytes id
  if sliceOk bs 2 then some (bs.take 2) else none

/-- One multipart form part: field name, optional client file name, payload. -/
structure Part where
  name : String
  fileName : Option String
  data : Bytes
deriving DecidableEq

/-- The response record serialized by the service (struct `FileInfo`). -/
structure FileInfo where
  id : String
  filename : String
  size : Nat
  content_hash : String
  path : String
deriving DecidableEq

/-- The upload response (struct `UploadResponse`). -/
structure UploadResponse where
  success : Bool
  file : FileInfo
deriving DecidableEq

/-- The store root as seen through the handlers: `files` maps an id to the
bytes of the file at `root/id[0..2]/id`, and `dirs` records which shard
directories exist (they matter only because deletes never remove them). -/
structure Store where
  files : List (String × Bytes)
  dirs : List Bytes
deriving DecidableEq

/-- Find the bytes stored under an id: the read through the path
`root/id[0..2]/id` (a missing shard directory and a missing file are alike
a `None`). -/
def storeFind (l : List (String × Bytes)) (id : String) : Option Bytes :=
  match l with
  | [] => none
  | (k, v) :: t => if id = k then some v else storeFind t id

/-- Remove every binding of an id: the effect of `fs::remove_file` on the
one file at its path (a well-formed store binds each id at most once). -/
def eraseId (l : List (String × Bytes)) (id : String) : List (String × Bytes) :=
  match l with
  | [] => []
  | (k, v) :: t => if k = id then eraseId t id else (k, v) :: eraseId t id

/-- Outcome of one handler call: a Rust panic, an HTTP error status, or a
success value. -/
inductive HResult (α : Type) where
  | panicked : HResult α
  | status : Nat → HResult α
  | ok : α → HResult α
deriving DecidableEq

/-- The multipart loop body of `upload_file`: a part named `"file"`
overwrites the accumulated file name (defaulting to `"unnamed"`) and bytes;
every other part leaves them unchanged. -/
def fileFieldStep (acc : String × Bytes) (p : Part) : String × Bytes :=
  if p.name = "file" then (p.fileName.getD "unnamed", p.data) else acc

/-- The whole multipart loop of `upload_file`, starting from the empty name
and empty byte buffer. -/
def collectFileField (parts : List Part) : String × Bytes :=
  parts.foldl fileFieldStep ("", [])

/-- Handler `upload_file` (`main.rs` lines 86-141): collect the `"file"`
part, reject empty bytes with 400, compute the hash and shard, create the
shard directory, write the file, and answer with the `FileInfo` record.
`freshId` stands for `Uuid::new_v4().to_string()`. -/
def upload_file (s : Store) (freshId : String) (parts : List Part) :
    HResult (UploadResponse × Store) :=
  let fd := collectFileField parts
  if fd.2.isEmpty then .status 400
  else
    match rustSlice2 freshId with
    | none => .panicked
    | some shard =>
      let content_hash := hexEncode (sha256 fd.2)
      let s' : Store :=
        { files := (freshId, fd.2) :: eraseId s.files freshId,
          dirs := if s.dirs.contains shard then s.dirs else shard :: s.dirs }
      .ok ({ success := true,
             file := { id := freshId, filename := fd.1, size := fd.2.length,
                       content_hash := content_hash,
                       path := "/files/" ++ freshId } }, s')

/-- The store after an upload request: an error response leaves the
filesystem untouched, because the 400 check precedes every filesystem
operation in the handler. -/
def uploadStep (s : Store) (freshId : String) (parts : List Part) : Store :=
  match upload_file s freshId parts with
  | .ok (_, s') => s'
  | _ => s

/-- Handler `download_file` (`main.rs` lines 144-161): slice the shard
prefix, 404 when the file does not exist, otherwise serve its bytes. -/
def download_file (s : Store) (id : String) : HResult Bytes :=
  match rustSlice2 id with
  | none => .panicked
  | some _ =>
    match storeFind s.files id with
    | none => .status 404
    | some b => .ok b

/-- Handler `delete_file` (`main.rs` lines 163-182): slice the shard
prefix, 404 when the file does not exist, otherwise remove the file (and
only the file — the shard directory stays) and answer 204. -/
def delete_file (s : Store) (id : String) : HResult (Nat × Store) :=
  match rustSlice2 id with
  | none => .panicked
  | some _ =>
    match storeFind s.files id with
    | none => .status 404
    | some _ => .ok (204, { s with files := eraseId s.files id })

/-- Handler `file_info` (`main.rs` lines 184-213): slice the shard prefix,
404 when the file does not exist, otherwise stat the file for its size,
re-read and re-hash its bytes, and answer with `filename` set to the id
itself. -/
def file_info (s : Store) (id : String) : HResult FileInfo :=
  match rustSlice2 id with
  | none => .panicked
  | some _ =>
    match storeFind s.files id with
    | none => .status 404
    | some b =>
      .ok { id := id, filename := id, size := b.length,
            content_hash := hexEncode (sha256 b),
            path := "/files/" ++ id }

/-- Startup configuration (`main.rs` lines 42-43): the data directory comes
from `RUSTFS_DATA_DIR` (default `"/data"`), the port from `RUSTFS_PORT`
(default `"9000"`); `env` is the process environment. -/
def readConfig (env : String → Option String) : String × String :=
  let data_dir := match env "RUSTFS_DATA_DIR" with
    | some v => v
    | none => "/data"
  let port := match env "RUSTFS_PORT" with
    | some v => v
    | none => "9000"
  (data_dir, port)

/-- An environment that sets only the plain names `DATA_DIR` and `PORT`. -/
def envPlainNames : String → Option String := fun k =>
  if k = "DATA_DIR" then some "/custom"
  else if k = "PORT" then some "1234" else none

/-- An environment that sets the names the source actually reads. -/
def envRustfsNames : String → Option String := fun k =>
  if k = "RUSTFS_DATA_DIR" then some "/srv/blobs"
  else if k = "RUSTFS_PORT" then some "8080" else none

/-! Helper lemmas about association-list lookup, UTF-8 byte slicing and the
multipart fold. -/

theorem storeFind_eraseId_self (l : List (String × Bytes)) (id : String) :
    storeFind (eraseId l id) id = none := by
  induction l with
  | nil => rfl
  | cons hd tl ih =>
    obtain ⟨k, v⟩ := hd
    by_cases h : k = id
    · simpa [eraseId, h] using ih
    · simpa [eraseId, storeFind, h, Ne.symm h] using ih

theorem storeFind_eraseId_ne (l : List (String × Bytes)) (id id' : String) (h : id' ≠ id) :
    storeFind (eraseId l id) id' = storeFind l id' := by
  induction l with
  | nil => rfl
  | cons hd tl ih =>
    obtain ⟨k, v⟩ := hd
    by_cases hk : k = id
    · subst hk
      simpa [eraseId, storeFind, h] using ih
    · by_cases hk' : id' = k
      · simp [eraseId, storeFind, hk, hk']
      · simpa [eraseId, storeFind, hk, hk'] using ih

theorem utf8BytesL_ascii (cs : List Char) (h : ∀ c ∈ cs, c.toNat < 128) :
    utf8BytesL cs = cs.map (fun c => c.toNat) := by
  induction cs with
  | nil => rfl
  | cons c t ih =>
    have hc : c.toNat < 128 := h c (by simp)
    have ht := ih (fun x hx => h x (by simp [hx]))
    simp [utf8BytesL, utf8EncodeCharNat, hc] at ht ⊢
    exact ht

theorem sliceOk_short (bs : Bytes) (h : bs.length < 2) : sliceOk bs 2 = false := by
  match bs, h with
  | [], _ => rfl
  | [b], _ => rfl

theorem sliceOk_ascii (cs : List Char) (h2 : 2 ≤ cs.length)
    (h : ∀ c ∈ cs, c.toNat < 128) :
    sliceOk (utf8BytesL cs) 2 = true := by
  rw [utf8BytesL_ascii cs h]
  match cs, h2 with
  | c1 :: c2 :: rest, _ =>
    cases rest with
    | nil => rfl
    | cons c3 r =>
      have hc : c3.toNat < 128 := h c3 (by simp)
      have hd : c3.toNat / 64 < 2 := by omega
      simp [sliceOk, List.drop]
      omega

theorem foldl_no_file_part (r : List Part) (acc : String × Bytes)
    (hr : ∀ q ∈ r, q.name ≠ "file") : r.foldl fileFieldStep acc = acc := by
  induction r generalizing acc with
  | nil => rfl
  | cons q t ih =>
    have hq : q.name ≠ "file" := hr q (by simp)
    rw [List.foldl_cons, fileFieldStep, if_neg hq]
    exact ih acc (fun p hp => hr p (by simp [hp]))

theorem collectFileField_last (l r : List Part) (p : Part)
    (hp : p.name = "file") (hr : ∀ q ∈ r, q.name ≠ "file") :
    collectFileField (l ++ p :: r) = (p.fileName.getD "unnamed", p.data) := by
  unfold collectFileField
  rw [List.foldl_append, List.foldl_cons, fileFieldStep, if_pos hp]
  exact foldl_no_file_part r _ hr

/-- SHA-256 sanity anchor: the digest of the five bytes of `"hello"` matches
the vector quoted in the specification. -/
theorem sha256_hello_vector :
    hexEncode (sha256 [104, 101, 108, 108, 111]) =
      "2cf24dba5fb0a30e26e83b2ac5b9e29e1b161e5c1fa7425e73043362938b9824" := by
  decide

/-- The canonical successful-upload equation used by several claims. -/
theorem upload_file_ok (s : Store) (freshId : String) (parts : List Part)
    (fn : String) (b : Bytes) (hcf : collectFileField parts = (fn, b))
    (hid : sliceOk (utf8Bytes freshId) 2 = true) (hb : b ≠ []) :
    upload_file s freshId parts =
      .ok ({ success := true,
             file := { id := freshId, filename := fn,
                       size := b.length,
                       content_hash := hexEncode (sha256 b),
                       path := "/files/" ++ freshId } },
           { files := (freshId, b) :: eraseId s.files freshId,
             dirs := if s.dirs.contains ((utf8Bytes freshId).take 2) then s.dirs
                     else (utf8Bytes freshId).take 2 :: s.dirs }) := by
  have hbe : b.isEmpty = false := by
    cases b with
    | nil => cases hb rfl
    | cons x t => rfl
  have hrs : rustSlice2 freshId = some ((utf8Bytes freshId).take 2) := by
    simp [rustSlice2, hid]
  simp [upload_file, hcf, hbe, hrs]

/-- The `"file"` field collected from a one-part body. -/
theorem collectFileField_single (fname : Option String) (b : Bytes) :
    collectFileField [⟨"file", fname, b⟩] = (fname.getD "unnamed", b) := by
  simp [collectFileField, fileFieldStep]

/-- C1. Round-trip fidelity: uploading a non-empty byte sequence `b` as the
`"file"` part and then downloading the id returned by that upload yields
exactly `b`; the file stored at the id's path holds exactly `b`. -/
theorem C1_upload_download_roundtrip (s : Store) (freshId : String)
    (fname : Option String) (b : Bytes)
    (hid : sliceOk (utf8Bytes freshId) 2 = true) (hb : b ≠ []) :
    ∃ resp s', upload_file s freshId [⟨"file", fname, b⟩] = .ok (resp, s') ∧
      resp.file.id = freshId ∧ resp.success = true ∧
      storeFind s'.files resp.file.id = some b ∧
      download_file s' resp.file.id = .ok b := by
  have hrs : rustSlice2 freshId = some ((utf8Bytes freshId).take 2) := by
    simp [rustSlice2, hid]
  refine ⟨_, _, upload_file_ok s freshId _ _ b (collectFileField_single fname b) hid hb,
    rfl, rfl, ?_, ?_⟩
  · simp [storeFind]
  · simp [download_file, hrs, storeFind]

/-- C1 witness: a concrete upload of the bytes of `"hello"` under id
`"ab"` into the empty store, then a download of the same id. -/
theorem C1_witness :
    ∃ resp s',
      upload_file ⟨[], []⟩ "ab" [⟨"file", some "a.txt", [104, 101, 108, 108, 111]⟩] =
        .ok (resp, s') ∧
      resp.file.id = "ab" ∧ resp.success = true ∧
      storeFind s'.files resp.file.id = some [104, 101, 108, 108, 111] ∧
      download_file s' resp.file.id = .ok [104, 101, 108, 108, 111] :=
  C1_upload_download_roundtrip ⟨[], []⟩ "ab" (some "a.txt") [104, 101, 108, 108, 111]
    (by decide) (by decide)

/-- Claim C2. The `content_hash` in the upload response is the lowercase
hex encoding of the SHA-256 digest of the uploaded bytes, and an `Info`
call on the returned id (stored bytes unchanged) recomputes the identical
hash from the file's bytes. -/
theorem C2_content_hash (s : Store) (freshId : String) (fname : Option String)
    (b : Bytes) (hid : sliceOk (utf8Bytes freshId) 2 = true) (hb : b ≠ []) :
    ∃ resp s', upload_file s freshId [⟨"file", fname, b⟩] = .ok (resp, s') ∧
      resp.file.content_hash = hexEncode (sha256 b) ∧
      ∃ info, file_info s' resp.file.id = .ok info ∧
        info.content_hash = hexEncode (sha256 b) := by
  have hrs : rustSlice2 freshId = some ((utf8Bytes freshId).take 2) := by
    simp [rustSlice2, hid]
  refine ⟨_, _, upload_file_ok s freshId _ _ b (collectFileField_single fname b) hid hb,
    rfl, ?_⟩
  refine ⟨{ id := freshId, filename := freshId, size := b.length,
            content_hash := hexEncode (sha256 b),
            path := "/files/" ++ freshId }, ?_, rfl⟩
  simp [file_info, hrs, storeFind]

/-- C2 witness: uploading the bytes of `"hello"` yields the hash the
specification quotes, both in the upload response and in the info lookup. -/
theorem C2_witness :
    hexEncode (sha256 [104, 101, 108, 108, 111]) =
      "2cf24dba5fb0a30e26e83b2ac5b9e29e1b161e5c1fa7425e73043362938b9824" ∧
    (∃ resp s',
      upload_file ⟨[], []⟩ "ab" [⟨"file", some "a.txt", [104, 101, 108, 108, 111]⟩] =
        .ok (resp, s') ∧
      resp.file.content_hash = hexEncode (sha256 [104, 101, 108, 108, 111]) ∧
      ∃ info, file_info s' resp.file.id = .ok info ∧
        info.content_hash = hexEncode (sha256 [104, 101, 108, 108, 111])) :=
  ⟨by decide,
   C2_content_hash ⟨[], []⟩ "ab" (some "a.txt") [104, 101, 108, 108, 111]
     (by decide) (by decide)⟩

/-- Claim C3. An upload whose `"file"` part is empty or missing fails with
status 400 and leaves the store untouched: the emptiness check precedes
every filesystem operation of the handler. -/
theorem C3_empty_upload_rejected (s : Store) (freshId : String) (parts : List Part)
    (h : (collectFileField parts).2 = []) :
    upload_file s freshId parts = .status 400 ∧ uploadStep s freshId parts = s := by
  have he : upload_file s freshId parts = .status 400 := by
    simp [upload_file, h]
  exact ⟨he, by simp [uploadStep, he]⟩

/-- C3 witness: a body with no parts at all and a body whose `"file"` part
carries zero bytes are both rejected with 400 and change nothing. -/
theorem C3_witness :
    (upload_file ⟨[], []⟩ "ab" [] = .status 400 ∧
      uploadStep ⟨[], []⟩ "ab" [] = ⟨[], []⟩) ∧
    (upload_file ⟨[], []⟩ "ab" [⟨"file", some "a.txt", []⟩] = .status 400 ∧
      uploadStep ⟨[], []⟩ "ab" [⟨"file", some "a.txt", []⟩] = ⟨[], []⟩) :=
  ⟨C3_empty_upload_rejected ⟨[], []⟩ "ab" [] (by decide),
   C3_empty_upload_rejected ⟨[], []⟩ "ab" [⟨"file", some "a.txt", []⟩] (by decide)⟩

/-- Claim C4. On an id that is stored nowhere — whatever shard directories
exist, including none — `download_file`, `delete_file` and `file_info` all
answer 404, never a server error. -/
theorem C4_unknown_id_not_found (s : Store) (id : String)
    (h2 : sliceOk (utf8Bytes id) 2 = true)
    (habs : storeFind s.files id = none) :
    download_file s id = .status 404 ∧ delete_file s id = .status 404 ∧
      file_info s id = .status 404 := by
  have hrs : rustSlice2 id = some ((utf8Bytes id).take 2) := by
    simp [rustSlice2, h2]
  exact ⟨by simp [download_file, hrs, habs], by simp [delete_file, hrs, habs],
    by simp [file_info, hrs, habs]⟩

/-- C4 witness: the id `"ab"` was never uploaded and its shard directory
`[97, 98]` does not exist in the store, yet all three reads answer 404. -/
theorem C4_witness :
    ((⟨[("cdef", [1])], [[99, 100]]⟩ : Store).dirs.contains [97, 98] = false) ∧
    (download_file ⟨[("cdef", [1])], [[99, 100]]⟩ "ab" = .status 404 ∧
      delete_file ⟨[("cdef", [1])], [[99, 100]]⟩ "ab" = .status 404 ∧
      file_info ⟨[("cdef", [1])], [[99, 100]]⟩ "ab" = .status 404) :=
  ⟨by decide, C4_unknown_id_not_found ⟨[("cdef", [1])], [[99, 100]]⟩ "ab"
    (by decide) (by decide)⟩

/-- Claim C6. Deleting a present id succeeds with 204; afterwards download,
info and a second delete on that id all answer 404, until a new upload of
that id makes it present again. -/
theorem C6_delete_lifecycle (s : Store) (id : String) (b : Bytes)
    (h2 : sliceOk (utf8Bytes id) 2 = true)
    (hp : storeFind s.files id = some b) :
    ∃ s', delete_file s id = .ok (204, s') ∧
      storeFind s'.files id = none ∧
      download_file s' id = .status 404 ∧
      file_info s' id = .status 404 ∧
      delete_file s' id = .status 404 ∧
      ∀ fname (b' : Bytes), b' ≠ [] →
        ∃ resp s'', upload_file s' id [⟨"file", fname, b'⟩] = .ok (resp, s'') ∧
          download_file s'' id = .ok b' := by
  have hrs : rustSlice2 id = some ((utf8Bytes id).take 2) := by
    simp [rustSlice2, h2]
  have habs : storeFind (eraseId s.files id) id = none := storeFind_eraseId_self _ _
  refine ⟨{ s with files := eraseId s.files id }, ?_, habs, ?_, ?_, ?_, ?_⟩
  · simp [delete_file, hrs, hp]
  · simp [download_file, hrs, habs]
  · simp [file_info, hrs, habs]
  · simp [delete_file, hrs, habs]
  · intro fname b' hb'
    refine ⟨_, _,
      upload_file_ok _ id _ _ b' (collectFileField_single fname b') h2 hb', ?_⟩
    simp [download_file, hrs, storeFind]

/-- C6 witness: delete the only file of a concrete store, observe the 404s,
then re-upload under the same id and download it again. -/
theorem C6_witness :
    ∃ s', delete_file ⟨[("ab", [5])], [[97, 98]]⟩ "ab" = .ok (204, s') ∧
      storeFind s'.files "ab" = none ∧
      download_file s' "ab" = .status 404 ∧
      file_info s' "ab" = .status 404 ∧
      delete_file s' "ab" = .status 404 ∧
      ∀ fname (b' : Bytes), b' ≠ [] →
        ∃ resp s'', upload_file s' "ab" [⟨"file", fname, b'⟩] = .ok (resp, s'') ∧
          download_file s'' "ab" = .ok b' :=
  C6_delete_lifecycle ⟨[("ab", [5])], [[97, 98]]⟩ "ab" [5] (by decide) (by decide)

/-- Claim C7. A successful delete removes exactly the deleted id: the shard
directories are untouched and every other id resolves to exactly the bytes
it held before. -/
theorem C7_delete_frame (s : Store) (id : String) (b : Bytes)
    (h2 : sliceOk (utf8Bytes id) 2 = true)
    (hp : storeFind s.files id = some b) :
    ∃ s', delete_file s id = .ok (204, s') ∧
      s'.dirs = s.dirs ∧
      storeFind s'.files id = none ∧
      ∀ id', id' ≠ id → storeFind s'.files id' = storeFind s.files id' := by
  have hrs : rustSlice2 id = some ((utf8Bytes id).take 2) := by
    simp [rustSlice2, h2]
  refine ⟨{ s with files := eraseId s.files id }, ?_, rfl,
    storeFind_eraseId_self _ _, fun id' h => storeFind_eraseId_ne _ _ _ h⟩
  simp [delete_file, hrs, hp]

/-- C7 witness: deleting `"ab"` from a two-file store keeps both shard
directories and leaves every other id bound exactly as before. -/
theorem C7_witness :
    ∃ s', delete_file ⟨[("ab", [1]), ("cd", [2, 3])], [[97, 98], [99, 100]]⟩ "ab" =
        .ok (204, s') ∧
      s'.dirs = [[97, 98], [99, 100]] ∧
      storeFind s'.files "ab" = none ∧
      ∀ id', id' ≠ "ab" →
        storeFind s'.files id' =
          storeFind [("ab", [1]), ("cd", [2, 3])] id' :=
  C7_delete_frame ⟨[("ab", [1]), ("cd", [2, 3])], [[97, 98], [99, 100]]⟩ "ab" [1]
    (by decide) (by decide)

/-- Claim C8. For an existing blob, `file_info` answers with `filename`
equal to the id itself (never a client-supplied upload name), `size` taken
from the stored file's length, and `path` equal to `"/files/" ++ id`. -/
theorem C8_info_fields (s : Store) (id : String) (b : Bytes)
    (h2 : sliceOk (utf8Bytes id) 2 = true)
    (hp : storeFind s.files id = some b) :
    file_info s id = .ok { id := id, filename := id, size := b.length,
                           content_hash := hexEncode (sha256 b),
                           path := "/files/" ++ id } := by
  have hrs : rustSlice2 id = some ((utf8Bytes id).take 2) := by
    simp [rustSlice2, h2]
  simp [file_info, hrs, hp]

/-- C8 witness: the info record of a concretely stored blob carries the id
as its filename, the stored length as its size, and the `/files/` path. -/
theorem C8_witness :
    file_info ⟨[("ab", [5, 6, 7])], [[97, 98]]⟩ "ab" =
      .ok { id := "ab", filename := "ab", size := 3,
            content_hash := hexEncode (sha256 [5, 6, 7]),
            path := "/files/ab" } :=
  C8_info_fields ⟨[("ab", [5, 6, 7])], [[97, 98]]⟩ "ab" [5, 6, 7]
    (by decide) (by decide)

/-- Claim C5 counterexample: the claim asserts undefined slicing for every
id shorter than two characters, but the one-character id `"é"` (U+00E9,
two UTF-8 bytes) slices successfully — the handlers answer 404 instead of
panicking. -/
theorem C5_counterexample :
    (String.mk [Char.ofNat 233]).data.length < 2 ∧
    download_file ⟨[], []⟩ (String.mk [Char.ofNat 233]) = .status 404 ∧
    delete_file ⟨[], []⟩ (String.mk [Char.ofNat 233]) = .status 404 ∧
    file_info ⟨[], []⟩ (String.mk [Char.ofNat 233]) = .status 404 := by
  decide

/-- Claim C5 as amended. For every id whose UTF-8 encoding is shorter than
two bytes — in particular the empty id and every one-character ASCII id —
the slice `&id[..2]` panics in Download, Delete and Info (the handlers do
not totalize the prefix computation); for every id of at least two ASCII
characters the slice succeeds. -/
theorem C5_slice_totality (s : Store) (id : String) :
    ((utf8Bytes id).length < 2 →
      download_file s id = .panicked ∧ delete_file s id = .panicked ∧
        file_info s id = .panicked) ∧
    (2 ≤ id.data.length → (∀ c ∈ id.data, c.toNat < 128) →
      ∃ shard, rustSlice2 id = some shard ∧
        download_file s id ≠ .panicked ∧ delete_file s id ≠ .panicked ∧
        file_info s id ≠ .panicked) := by
  constructor
  · intro h
    have hf : sliceOk (utf8Bytes id) 2 = false := sliceOk_short _ h
    have hrs : rustSlice2 id = none := by simp [rustSlice2, hf]
    exact ⟨by simp [download_file, hrs], by simp [delete_file, hrs],
      by simp [file_info, hrs]⟩
  · intro h2 hascii
    have hok : sliceOk (utf8Bytes id) 2 = true := sliceOk_ascii id.data h2 hascii
    have hrs : rustSlice2 id = some ((utf8Bytes id).take 2) := by
      simp [rustSlice2, hok]
    refine ⟨_, hrs, ?_, ?_, ?_⟩
    · simp only [download_file, hrs]
      cases storeFind s.files id <;> simp
    · simp only [delete_file, hrs]
      cases storeFind s.files id <;> simp
    · simp only [file_info, hrs]
      cases storeFind s.files id <;> simp

/-- C5 witness: the one-character ASCII id `"a"` panics the download
handler, while the two-character id `"ab"` does not. -/
theorem C5_witness :
    download_file ⟨[], []⟩ "a" = .panicked ∧
    download_file ⟨[], []⟩ "ab" ≠ .panicked := by
  constructor
  · exact ((C5_slice_totality ⟨[], []⟩ "a").1 (by decide)).1
  · obtain ⟨sh, hsh, hd, _, _⟩ :=
      (C5_slice_totality ⟨[], []⟩ "ab").2 (by decide) (by decide)
    exact hd

/-- Claim C9 counterexample: an environment that sets `DATA_DIR` and `PORT`
— the names the claim gives — but not the `RUSTFS_`-prefixed names has no
effect: the service still starts with the defaults `/data` and `9000`. -/
theorem C9_counterexample :
    readConfig envPlainNames = ("/data", "9000") := by
  decide

/-- Claim C9 as amended. The configuration is read from the environment
variables `RUSTFS_DATA_DIR` (data directory, default `/data`) and
`RUSTFS_PORT` (listen port, default `9000`), and from nothing else: two
environments agreeing on those two variables configure the service
identically. -/
theorem C9_env_config (env : String → Option String) (d p : String) :
    (env "RUSTFS_DATA_DIR" = some d → (readConfig env).1 = d) ∧
    (env "RUSTFS_DATA_DIR" = none → (readConfig env).1 = "/data") ∧
    (env "RUSTFS_PORT" = some p → (readConfig env).2 = p) ∧
    (env "RUSTFS_PORT" = none → (readConfig env).2 = "9000") ∧
    (∀ env', env' "RUSTFS_DATA_DIR" = env "RUSTFS_DATA_DIR" →
      env' "RUSTFS_PORT" = env "RUSTFS_PORT" →
      readConfig env' = readConfig env) := by
  refine ⟨?_, ?_, ?_, ?_, ?_⟩
  · intro h; simp [readConfig, h]
  · intro h; simp [readConfig, h]
  · intro h; simp [readConfig, h]
  · intro h; simp [readConfig, h]
  · intro env' h1 h2; simp [readConfig, h1, h2]

/-- C9 witness: with `RUSTFS_DATA_DIR=/srv/blobs` and `RUSTFS_PORT=8080`
set, the service uses exactly those values. -/
theorem C9_witness :
    (readConfig envRustfsNames).1 = "/srv/blobs" ∧
    (readConfig envRustfsNames).2 = "8080" :=
  ⟨(C9_env_config envRustfsNames "/srv/blobs" "8080").1 (by decide),
   (C9_env_config envRustfsNames "/srv/blobs" "8080").2.2.1 (by decide)⟩

/-- Claim C10. In a multipart body, the last part named `"file"` wins: its
file name and bytes overwrite those of every earlier `"file"` part, parts
with any other name are consumed and ignored, and the request is accepted
or rejected with 400 solely by whether that last `"file"` part's bytes are
non-empty. -/
theorem C10_last_file_part_wins (s : Store) (freshId : String)
    (l r : List Part) (p : Part)
    (hid : sliceOk (utf8Bytes freshId) 2 = true)
    (hp : p.name = "file") (hr : ∀ q ∈ r, q.name ≠ "file") :
    collectFileField (l ++ p :: r) = (p.fileName.getD "unnamed", p.data) ∧
    (p.data = [] → upload_file s freshId (l ++ p :: r) = .status 400) ∧
    (p.data ≠ [] → ∃ resp s',
      upload_file s freshId (l ++ p :: r) = .ok (resp, s') ∧
      resp.file.filename = p.fileName.getD "unnamed" ∧
      resp.file.size = p.data.length ∧
      storeFind s'.files freshId = some p.data) := by
  have hcf := collectFileField_last l r p hp hr
  refine ⟨hcf, ?_, ?_⟩
  · intro hd
    simp [upload_file, hcf, hd]
  · intro hd
    refine ⟨_, _, upload_file_ok s freshId _ _ p.data hcf hid hd, rfl, rfl, ?_⟩
    simp [storeFind]

/-- C10 witness: with a non-empty first `"file"` part, an ignored `"meta"`
part and an empty last `"file"` part the request is rejected with 400; with
the non-empty `"file"` part last, its name and bytes are the ones kept. -/
theorem C10_witness :
    upload_file ⟨[], []⟩ "ab"
      [⟨"file", some "first.bin", [1, 2]⟩, ⟨"meta", none, [9]⟩,
       ⟨"file", some "second.bin", []⟩] = .status 400 ∧
    (∃ resp s', upload_file ⟨[], []⟩ "ab"
        [⟨"file", some "first.bin", [1, 2]⟩, ⟨"meta", none, [9]⟩,
         ⟨"file", some "second.bin", [3]⟩] = .ok (resp, s') ∧
      resp.file.filename = "second.bin" ∧
      resp.file.size = 1 ∧
      storeFind s'.files "ab" = some [3]) := by
  constructor
  · exact (C10_last_file_part_wins ⟨[], []⟩ "ab"
      [⟨"file", some "first.bin", [1, 2]⟩, ⟨"meta", none, [9]⟩]
      [] ⟨"file", some "second.bin", []⟩
      (by decide) rfl (by simp)).2.1 rfl
  · exact (C10_last_file_part_wins ⟨[], []⟩ "ab"
      [⟨"file", some "first.bin", [1, 2]⟩, ⟨"meta", none, [9]⟩]
      [] ⟨"file", some "second.bin", [3]⟩
      (by decide) rfl (by simp)).2.2 (by decide)

end RustFS
